import Mathlib

/-!
Verification of the codai cache core (code_analyzer/cache.go,
cache_performance.go, analyzer.go) against its specification.

Modelling conventions, chosen to mirror the Go source:
* `os.Stat` results are modelled as a function `String → Option FileInfo`
  (the stat view of the filesystem); `none` models a stat error
  (file absent).
* Timestamps (`time.Time`) are integers counting nanoseconds; Go's
  `Time.Equal` is exact integer equality and `Time.Unix()` is floor
  division by 10^9.
* The on-disk entry store (one gob file per key inside the cache
  directory) is a function `String → Option Blob`; a `Blob` is either a
  decodable `CacheEntry` or undecodable bytes (`corrupt`), so read-side
  decode failures can be expressed.  `dirExists` tracks whether the cache
  directory itself exists (`os.RemoveAll` in `FileCache.Clear` removes it).
* `generateCacheKey` (md5 hex of the identity plus ".cache") is modelled
  by the injective encoding `fun p => p ++ ".cache"`; the source relies
  only on determinism and collision freedom of the key derivation.
* gob encode/decode of a `CacheEntry` round-trips; the `interface{}`
  payload with its runtime type assertions is the tagged union `CacheData`.
* Write errors (`ioutil.WriteFile`) occur exactly when the cache directory
  is missing; `CacheStats.LastResetTime` is omitted (no claim refers to it).
-/

namespace Codai

/-- Result of `os.Stat`: size and modification time (nanoseconds). -/
structure FileInfo where
  size : Int
  modTime : Int
deriving DecidableEq

/-- models.FileData. -/
structure FileData where
  relativePath : String
  code : String
  treeSitterCode : String
deriving DecidableEq

/-- models.FullContextData. -/
structure FullContextData where
  fileData : List FileData
  rawCodes : List String
deriving DecidableEq

/-- models.FileSnapshot.  `hash` is built by
`fmt.Sprintf("%d_%d", modTime.Unix(), size)`; since decimal rendering of
the two integers around a separator is injective, the string is modelled
as the pair (seconds, size) itself. -/
structure FileSnapshot where
  relativePath : String
  modTime : Int
  size : Int
  hash : Int × Int
deriving DecidableEq

/-- models.ProjectSnapshot; the Go map `Files` is an association list
relativePath ↦ FileSnapshot. -/
structure ProjectSnapshot where
  rootDir : String
  timestamp : Int
  files : List (String × FileSnapshot)
deriving DecidableEq

/-- The `interface{}` payload of a cache entry: the four runtime types the
cache registers with gob and matches with type assertions. -/
inductive CacheData where
  | bytes (content : String)
  | strings (parts : List String)
  | fullContext (d : FullContextData)
  | snapshot (s : ProjectSnapshot)
deriving DecidableEq

/-- CacheEntry from cache.go. -/
structure CacheEntry where
  data : CacheData
  timestamp : Int
  fileSize : Int
  modTime : Int
  hash : String
deriving DecidableEq

/-- Bytes stored under one cache key: either a decodable entry, or bytes
on which `gob.Decode` fails. -/
inductive Blob where
  | entry (e : CacheEntry)
  | corrupt
deriving DecidableEq

/-- md5-based key derivation `fmt.Sprintf("%x.cache", md5.Sum(path))`,
modelled injectively. -/
def generateCacheKey (filePath : String) : String :=
  filePath ++ ".cache"

/-- Overwrite the file at key `k` (ioutil.WriteFile). -/
def storeWrite (s : String → Option Blob) (k : String) (b : Blob) :
    String → Option Blob :=
  fun q => if q = k then some b else s q

/-- Remove the file at key `k` (os.Remove). -/
def storeRemove (s : String → Option Blob) (k : String) :
    String → Option Blob :=
  fun q => if q = k then none else s q

/-- State of a FileCache: stat view of source files, existence of the
cache directory, and the entry files inside it. -/
structure FCState where
  fs : String → Option FileInfo
  dirExists : Bool
  store : String → Option Blob

/-- FileCache.isFileChanged: returns (changed, errOccurred). -/
def FileCache.isFileChanged (fs : String → Option FileInfo)
    (filePath : String) (entry : CacheEntry) : Bool × Bool :=
  match fs filePath with
  | none => (true, true)
  | some info =>
    (decide (¬ info.modTime = entry.modTime ∨ ¬ info.size = entry.fileSize),
     false)

/-- FileCache.Get: existence check, decode, then the staleness check
against a fresh stat of `filePath`; a changed or unstattable source file
deletes the entry and yields a miss. -/
def FileCache.Get (st : FCState) (filePath : String) :
    (Option CacheData × Bool) × FCState :=
  let cacheKey := generateCacheKey filePath
  if st.dirExists then
    match st.store cacheKey with
    | none => ((none, false), st)
    | some Blob.corrupt => ((none, false), st)
    | some (Blob.entry e) =>
      let c := FileCache.isFileChanged st.fs filePath e
      if c.2 || c.1 then
        ((none, false), { st with store := storeRemove st.store cacheKey })
      else
        ((some e.data, true), st)
  else ((none, false), st)

/-- FileCache.Set: stats the source file (error if that fails), builds a
CacheEntry carrying the fresh size/modTime, writes it (error if the cache
directory is missing). -/
def FileCache.Set (st : FCState) (now : Int) (filePath : String)
    (data : CacheData) : Except String FCState :=
  match st.fs filePath with
  | none => Except.error "failed to get file info"
  | some info =>
    if st.dirExists then
      Except.ok { st with
        store := storeWrite st.store (generateCacheKey filePath)
          (Blob.entry { data := data, timestamp := now, fileSize := info.size,
                        modTime := info.modTime,
                        hash := generateCacheKey filePath }) }
    else Except.error "failed to write cache file"

/-- FileCache.Clear: `os.RemoveAll(fc.cacheDir)` removes the directory
itself together with every entry. -/
def FileCache.Clear (st : FCState) : FCState :=
  { st with dirExists := false, store := fun _ => none }

/-- CacheStats counters (LastResetTime omitted; no claim refers to it). -/
structure CacheStats where
  totalRequests : Int
  cacheHits : Int
  cacheMisses : Int
deriving DecidableEq

/-- recordCacheHit. -/
def recordCacheHit (s : CacheStats) : CacheStats :=
  { s with totalRequests := s.totalRequests + 1, cacheHits := s.cacheHits + 1 }

/-- recordCacheMiss. -/
def recordCacheMiss (s : CacheStats) : CacheStats :=
  { s with totalRequests := s.totalRequests + 1,
           cacheMisses := s.cacheMisses + 1 }

/-- CacheManager: the entry store plus performance counters. -/
structure CMState where
  fc : FCState
  stats : CacheStats

/-- CacheManager.GetConfigCache: FileCache.Get plus a *FullContextData
type assertion; every return path records a hit or a miss. -/
def GetConfigCache (cm : CMState) (configPath : String) :
    (Option FullContextData × Bool) × CMState :=
  match FileCache.Get cm.fc configPath with
  | ((some (CacheData.fullContext d), true), fc2) =>
      ((some d, true), { fc := fc2, stats := recordCacheHit cm.stats })
  | ((_, _), fc2) =>
      ((none, false), { fc := fc2, stats := recordCacheMiss cm.stats })

/-- CacheManager.SetConfigCache = FileCache.Set of the bundle. -/
def SetConfigCache (cm : CMState) (now : Int) (configPath : String)
    (d : FullContextData) : Except String CMState :=
  match FileCache.Set cm.fc now configPath (CacheData.fullContext d) with
  | Except.ok fc2 => Except.ok { cm with fc := fc2 }
  | Except.error e => Except.error e

/-- CacheManager.GetFileContentCache: FileCache.Get plus a []byte type
assertion; every return path records a hit or a miss. -/
def GetFileContentCache (cm : CMState) (filePath : String) :
    (Option String × Bool) × CMState :=
  match FileCache.Get cm.fc filePath with
  | ((some (CacheData.bytes content), true), fc2) =>
      ((some content, true), { fc := fc2, stats := recordCacheHit cm.stats })
  | ((_, _), fc2) =>
      ((none, false), { fc := fc2, stats := recordCacheMiss cm.stats })

/-- CacheManager.SetFileContentCache = FileCache.Set of the raw bytes. -/
def SetFileContentCache (cm : CMState) (now : Int) (filePath : String)
    (content : String) : Except String CMState :=
  match FileCache.Set cm.fc now filePath (CacheData.bytes content) with
  | Except.ok fc2 => Except.ok { cm with fc := fc2 }
  | Except.error e => Except.error e

/-- CacheManager.GetTreeSitterCache: reads the entry under the suffixed
key and type-asserts []string.  It performs NO staleness check — unlike
FileCache.Get it never consults the source file's stat and never deletes
the entry.  Every return path records a hit or a miss. -/
def GetTreeSitterCache (cm : CMState) (filePath : String) :
    (Option (List String) × Bool) × CMState :=
  let cacheKey := generateCacheKey (filePath ++ ".treesitter")
  if cm.fc.dirExists then
    match cm.fc.store cacheKey with
    | some (Blob.entry e) =>
      match e.data with
      | CacheData.strings parts =>
          ((some parts, true), { cm with stats := recordCacheHit cm.stats })
      | _ => ((none, false), { cm with stats := recordCacheMiss cm.stats })
    | some Blob.corrupt =>
        ((none, false), { cm with stats := recordCacheMiss cm.stats })
    | none => ((none, false), { cm with stats := recordCacheMiss cm.stats })
  else ((none, false), { cm with stats := recordCacheMiss cm.stats })

/-- CacheManager.SetTreeSitterCache: writes an entry under the suffixed
key with FileSize 0 and ModTime now (no source stat). -/
def SetTreeSitterCache (cm : CMState) (now : Int) (filePath : String)
    (codeParts : List String) : Except String CMState :=
  if cm.fc.dirExists then
    Except.ok { cm with fc := { cm.fc with
      store := storeWrite cm.fc.store
        (generateCacheKey (filePath ++ ".treesitter"))
        (Blob.entry { data := CacheData.strings codeParts, timestamp := now,
                      fileSize := 0, modTime := now,
                      hash := filePath ++ ".treesitter" }) } }
  else Except.error "failed to write tree-sitter cache file"

/-- CacheManager.GetProjectSnapshot: reads and type-asserts the snapshot.
It records neither a hit nor a miss and never mutates the store, so the
state is returned unchanged. -/
def GetProjectSnapshot (cm : CMState) (key : String) :
    (Option ProjectSnapshot × Bool) × CMState :=
  let cacheKey := generateCacheKey key
  if cm.fc.dirExists then
    match cm.fc.store cacheKey with
    | some (Blob.entry e) =>
      match e.data with
      | CacheData.snapshot s => ((some s, true), cm)
      | _ => ((none, false), cm)
    | some Blob.corrupt => ((none, false), cm)
    | none => ((none, false), cm)
  else ((none, false), cm)

/-- CacheManager.SetProjectSnapshot: writes the snapshot entry without
any file system check (FileSize 0, ModTime now). -/
def SetProjectSnapshot (cm : CMState) (now : Int) (key : String)
    (s : ProjectSnapshot) : Except String CMState :=
  if cm.fc.dirExists then
    Except.ok { cm with fc := { cm.fc with
      store := storeWrite cm.fc.store (generateCacheKey key)
        (Blob.entry { data := CacheData.snapshot s, timestamp := now,
                      fileSize := 0, modTime := now, hash := key }) } }
  else Except.error "failed to write snapshot cache file"

/-- CacheManager.ClearCache: removes every entry file in the cache
directory but leaves the directory itself in place. -/
def ClearCache (cm : CMState) : Except String CMState :=
  if cm.fc.dirExists then
    Except.ok { cm with fc := { cm.fc with store := fun _ => none } }
  else Except.error "failed to read cache directory"

/-- CacheManager.ResetPerformanceStats. -/
def resetPerformanceStats (_s : CacheStats) : CacheStats :=
  { totalRequests := 0, cacheHits := 0, cacheMisses := 0 }

/-! Helper lemmas on the entry store. -/

lemma storeWrite_self (s : String → Option Blob) (k : String) (b : Blob) :
    storeWrite s k b k = some b := by
  simp [storeWrite]

lemma storeRemove_self (s : String → Option Blob) (k : String) :
    storeRemove s k k = none := by
  simp [storeRemove]

/-- A FileCache.Set on a stattable source with the cache directory in
place succeeds, overwriting the key with a fresh entry. -/
lemma fileCacheSet_ok (st : FCState) (now : Int) (f : String)
    (v : CacheData) (info : FileInfo) (hstat : st.fs f = some info)
    (hdir : st.dirExists = true) :
    FileCache.Set st now f v = Except.ok { st with
      store := storeWrite st.store (generateCacheKey f)
        (Blob.entry { data := v, timestamp := now, fileSize := info.size,
                      modTime := info.modTime,
                      hash := generateCacheKey f }) } := by
  unfold FileCache.Set
  rw [hstat]
  simp [hdir]

/-- A FileCache.Get whose key holds no entry file misses and leaves the
state unchanged. -/
lemma fileCacheGet_none (st : FCState) (f : String)
    (hlookup : st.store (generateCacheKey f) = none) :
    FileCache.Get st f = ((none, false), st) := by
  unfold FileCache.Get
  cases hd : st.dirExists <;> simp [hlookup]

/-- A FileCache.Get that finds an entry whose staleness check reports a
change (or a stat error) misses and deletes the entry. -/
lemma fileCacheGet_stale (st : FCState) (f : String) (e : CacheEntry)
    (hdir : st.dirExists = true)
    (hlookup : st.store (generateCacheKey f) = some (Blob.entry e))
    (hchanged : ((FileCache.isFileChanged st.fs f e).2
      || (FileCache.isFileChanged st.fs f e).1) = true) :
    FileCache.Get st f = ((none, false),
      { st with store := storeRemove st.store (generateCacheKey f) }) := by
  simp [FileCache.Get, hdir, hlookup, hchanged]

/-- A FileCache.Get that finds an entry whose staleness check reports no
change serves the entry's payload. -/
lemma fileCacheGet_fresh (st : FCState) (f : String) (e : CacheEntry)
    (hdir : st.dirExists = true)
    (hlookup : st.store (generateCacheKey f) = some (Blob.entry e))
    (hsame : ((FileCache.isFileChanged st.fs f e).2
      || (FileCache.isFileChanged st.fs f e).1) = false) :
    FileCache.Get st f = ((some e.data, true), st) := by
  simp [FileCache.Get, hdir, hlookup, hsame]

/-- When the identity names no stattable file, `FileCache.Get` misses:
the staleness check runs unconditionally and a stat failure invalidates. -/
lemma fileCacheGet_fs_none (st : FCState) (f : String)
    (hfs : st.fs f = none) :
    (FileCache.Get st f).1 = (none, false) := by
  unfold FileCache.Get
  cases hd : st.dirExists
  · simp
  · simp only [Bool.true_eq_false]
    cases hs : st.store (generateCacheKey f) with
    | none => simp
    | some b =>
      cases b with
      | corrupt => simp
      | entry e => simp [FileCache.isFileChanged, hfs]

/-! ### Claim C1 -/

/-- Empty filesystem: no identity names an existing file. -/
def emptyFS : String → Option FileInfo := fun _ => none

/-- A fresh CacheManager over an empty filesystem. -/
def cmEmpty : CMState :=
  { fc := { fs := emptyFS, dirExists := true, store := fun _ => none },
    stats := { totalRequests := 0, cacheHits := 0, cacheMisses := 0 } }

/-- A concrete bundle value. -/
def bundle0 : FullContextData :=
  { fileData := [], rawCodes := ["code"] }

/-- A state in which an entry holding `bundle0` sits under the logical
key "dir_project_scan" (what a successful set would have left behind). -/
def cmLogical : CMState :=
  { fc :=
      { fs := emptyFS
        dirExists := true
        store := storeWrite (fun _ => none)
          (generateCacheKey "dir_project_scan")
          (Blob.entry
            { data := CacheData.fullContext bundle0, timestamp := 0,
              fileSize := 3, modTime := 0,
              hash := generateCacheKey "dir_project_scan" }) }
    stats := { totalRequests := 0, cacheHits := 0, cacheMisses := 0 } }

/-- C1 counterexample: for the logical key "dir_project_scan" (naming no
existing file) a SetConfigCache fails with a stat error, and even with an
entry in place under that key, GetConfigCache does not skip the staleness
check: it returns (none, false) and deletes the entry. -/
theorem getConfigCache_logical_key_counterexample :
    SetConfigCache cmEmpty 0 "dir_project_scan" bundle0
      = Except.error "failed to get file info" ∧
    (GetConfigCache cmLogical "dir_project_scan").1 = (none, false) ∧
    (GetConfigCache cmLogical "dir_project_scan").2.fc.store
      (generateCacheKey "dir_project_scan") = none := by
  refine ⟨rfl, ?_, ?_⟩ <;> decide

/-- C1 (amended): `FileCache.Get` applies the file-staleness check to
every identity, logical keys included.  For a logical key k naming no
existing file, SetConfigCache(k, v) fails with a stat error and
GetConfigCache(k) returns (nil, false); the only accessors that skip the
check are the dedicated tree-sitter and snapshot ones. -/
theorem logical_key_set_fails_get_misses (cm : CMState) (now : Int)
    (k : String) (d : FullContextData) (hfs : cm.fc.fs k = none) :
    SetConfigCache cm now k d = Except.error "failed to get file info" ∧
    (GetConfigCache cm k).1 = (none, false) := by
  have hmiss := fileCacheGet_fs_none cm.fc k hfs
  constructor
  · unfold SetConfigCache FileCache.Set
    rw [hfs]
  · unfold GetConfigCache
    split
    · rename_i d2 fc2 heq
      rw [heq] at hmiss
      simp at hmiss
    · rfl

/-- C1 witness: the amended theorem applied at a concrete state. -/
theorem logical_key_set_fails_get_misses_witness :
    cmEmpty.fc.fs "dir_project_scan" = none ∧
    (SetConfigCache cmEmpty 0 "dir_project_scan" bundle0
        = Except.error "failed to get file info" ∧
      (GetConfigCache cmEmpty "dir_project_scan").1 = (none, false)) :=
  ⟨rfl, logical_key_set_fails_get_misses cmEmpty 0 "dir_project_scan" bundle0 rfl⟩

/-! ### Claim C3 -/

/-- C3: after a successful FileCache.Set(f, v), any modification of f
that changes its recorded size or modification time (or makes it
unstattable) makes FileCache.Get(f) return (nil, false), physically
delete the entry, and miss again on a subsequent Get. -/
theorem fileCache_set_modify_get_invalidates (st : FCState) (now : Int)
    (f : String) (v : CacheData) (info0 : FileInfo) (st1 : FCState)
    (fs2 : String → Option FileInfo)
    (hstat : st.fs f = some info0)
    (hset : FileCache.Set st now f v = Except.ok st1)
    (hmod : ∀ info2, fs2 f = some info2 →
      ¬ info2.modTime = info0.modTime ∨ ¬ info2.size = info0.size) :
    (FileCache.Get { st1 with fs := fs2 } f).1 = (none, false) ∧
    (FileCache.Get { st1 with fs := fs2 } f).2.store (generateCacheKey f)
      = none ∧
    (FileCache.Get ((FileCache.Get { st1 with fs := fs2 } f).2) f).1
      = (none, false) := by
  cases hd : st.dirExists
  · unfold FileCache.Set at hset
    rw [hstat, hd] at hset
    simp at hset
  · rw [fileCacheSet_ok st now f v info0 hstat hd] at hset
    injection hset with hset1
    subst hset1
    have hchg : ((FileCache.isFileChanged fs2 f
          { data := v, timestamp := now, fileSize := info0.size,
            modTime := info0.modTime, hash := generateCacheKey f }).2
        || (FileCache.isFileChanged fs2 f
          { data := v, timestamp := now, fileSize := info0.size,
            modTime := info0.modTime, hash := generateCacheKey f }).1)
        = true := by
      unfold FileCache.isFileChanged
      cases hfs2 : fs2 f with
      | none => simp
      | some info2 =>
        rcases hmod info2 hfs2 with h | h <;> simp [h]
    refine ⟨?_, ?_, ?_⟩ <;>
      simp [FileCache.Get, hd, hchg, storeWrite, storeRemove]

/-- Concrete filesystem for the C3 witness: one file "f" of size 1,
modification time 0. -/
def fsC3 : String → Option FileInfo :=
  fun p => if p = "f" then some { size := 1, modTime := 0 } else none

/-- The same file after a modification (size 1, modification time 7). -/
def fsC3b : String → Option FileInfo :=
  fun p => if p = "f" then some { size := 1, modTime := 7 } else none

/-- Store state before the C3 witness set. -/
def stC3 : FCState := { fs := fsC3, dirExists := true, store := fun _ => none }

/-- Store state after `FileCache.Set stC3 0 "f" (bytes "x")`. -/
def stC3after : FCState :=
  { stC3 with
    store := storeWrite stC3.store (generateCacheKey "f")
      (Blob.entry { data := CacheData.bytes "x", timestamp := 0, fileSize := 1,
                    modTime := 0, hash := generateCacheKey "f" }) }

/-- C3 witness: the invalidation theorem applied at a concrete file whose
modification time changed from 0 to 7. -/
theorem fileCache_set_modify_get_invalidates_witness :
    stC3.fs "f" = some { size := 1, modTime := 0 } ∧
    FileCache.Set stC3 0 "f" (CacheData.bytes "x") = Except.ok stC3after ∧
    ((FileCache.Get { stC3after with fs := fsC3b } "f").1 = (none, false) ∧
      (FileCache.Get { stC3after with fs := fsC3b } "f").2.store
        (generateCacheKey "f") = none ∧
      (FileCache.Get ((FileCache.Get { stC3after with fs := fsC3b } "f").2)
          "f").1 = (none, false)) :=
  ⟨rfl, rfl,
    fileCache_set_modify_get_invalidates stC3 0 "f" (CacheData.bytes "x")
      { size := 1, modTime := 0 } stC3after fsC3b rfl rfl
      (by
        intro i h
        rw [show fsC3b "f" = some { size := 1, modTime := 7 } from rfl] at h
        injection h with h2
        subst h2
        left
        decide)⟩

/-! ### Claim C4 -/

/-- Filesystem for the C4 counterexample: one file "g", size 1, mtime 0. -/
def cmTS0 : CMState :=
  { fc :=
      { fs := fun p =>
          if p = "g" then some { size := 1, modTime := 0 } else none
        dirExists := true
        store := fun _ => none }
    stats := { totalRequests := 0, cacheHits := 0, cacheMisses := 0 } }

/-- State after `SetTreeSitterCache cmTS0 0 "g" ["p"]`. -/
def cmTS1 : CMState :=
  { cmTS0 with
    fc :=
      { cmTS0.fc with
        store := storeWrite cmTS0.fc.store
          (generateCacheKey ("g" ++ ".treesitter"))
          (Blob.entry
            { data := CacheData.strings ["p"], timestamp := 0,
              fileSize := 0, modTime := 0,
              hash := "g" ++ ".treesitter" }) } }

/-- `cmTS1` after "g" is modified on disk (size 2, mtime 9). -/
def cmTS2 : CMState :=
  { cmTS1 with
    fc :=
      { cmTS1.fc with
        fs := fun p =>
          if p = "g" then some { size := 2, modTime := 9 } else none } }

/-- C4 counterexample: after SetTreeSitterCache("g", ["p"]) and a
size/mtime-changing modification of "g", GetTreeSitterCache("g") DOES
return the old parts with found = true — the stale entry is served. -/
theorem treeSitter_stale_served_counterexample :
    SetTreeSitterCache cmTS0 0 "g" ["p"] = Except.ok cmTS1 ∧
    cmTS2.fc.fs "g" ≠ cmTS0.fc.fs "g" ∧
    (GetTreeSitterCache cmTS2 "g").1 = (some ["p"], true) := by
  refine ⟨rfl, ?_, ?_⟩ <;> decide

/-- C4 (amended): GetTreeSitterCache performs no staleness check — the
derived-facts cache is read purely by key, so after SetTreeSitterCache
(f, parts) it returns (parts, true) whatever happens to f on disk.  The
never-serve-stale invariant holds only for the FileCache.Get-based
accessors (content and bundle caches), not the tree-sitter cache. -/
theorem getTreeSitterCache_no_staleness (cm cm1 : CMState) (now : Int)
    (f : String) (parts : List String) (fs2 : String → Option FileInfo)
    (hset : SetTreeSitterCache cm now f parts = Except.ok cm1) :
    (GetTreeSitterCache { cm1 with fc := { cm1.fc with fs := fs2 } } f).1
      = (some parts, true) := by
  unfold SetTreeSitterCache at hset
  cases hd : cm.fc.dirExists
  · rw [hd] at hset; simp at hset
  · rw [hd] at hset
    simp only [if_true] at hset
    injection hset with hset1
    subst hset1
    unfold GetTreeSitterCache
    simp [hd, storeWrite_self]

/-- C4 witness: the amended theorem applied at the concrete modified
state of the counterexample. -/
theorem getTreeSitterCache_no_staleness_witness :
    SetTreeSitterCache cmTS0 0 "g" ["p"] = Except.ok cmTS1 ∧
    (GetTreeSitterCache { cmTS1 with fc := { cmTS1.fc with
        fs := fun p => if p = "g" then some { size := 2, modTime := 9 }
          else none } } "g").1 = (some ["p"], true) :=
  ⟨rfl, getTreeSitterCache_no_staleness cmTS0 cmTS1 0 "g" ["p"] _ rfl⟩

/-! ### Claim C10 -/

/-- C10: FileCache.Clear removes the whole cache directory, so any
subsequent FileCache.Set of a stattable file fails with a write error;
CacheManager.ClearCache deletes only the entry files, leaving the
directory present, empty, and writable. -/
theorem clear_removes_dir_clearCache_keeps_dir (st : FCState)
    (cm : CMState) (now now2 : Int) (f g : String) (v w : CacheData)
    (info info2 : FileInfo)
    (hstat : st.fs f = some info)
    (hdir : cm.fc.dirExists = true)
    (hstat2 : cm.fc.fs g = some info2) :
    FileCache.Set (FileCache.Clear st) now f v
      = Except.error "failed to write cache file" ∧
    ∃ cm2, ClearCache cm = Except.ok cm2 ∧ cm2.fc.dirExists = true ∧
      (∀ q, cm2.fc.store q = none) ∧
      ∃ fc3, FileCache.Set cm2.fc now2 g w = Except.ok fc3 := by
  constructor
  · unfold FileCache.Set FileCache.Clear
    rw [hstat]
    simp
  · refine ⟨{ cm with fc := { cm.fc with store := fun _ => none } }, ?_, ?_, ?_, ?_⟩
    · unfold ClearCache
      rw [hdir]
      simp
    · exact hdir
    · intro q; rfl
    · exact ⟨_, fileCacheSet_ok { cm.fc with store := fun _ => none } now2 g w
        info2 hstat2 hdir⟩

/-- C10 witness: the theorem applied at concrete single-file states. -/
theorem clear_removes_dir_clearCache_keeps_dir_witness :
    stC3.fs "f" = some { size := 1, modTime := 0 } ∧
    cmTS0.fc.dirExists = true ∧
    cmTS0.fc.fs "g" = some { size := 1, modTime := 0 } ∧
    (FileCache.Set (FileCache.Clear stC3) 0 "f" (CacheData.bytes "x")
        = Except.error "failed to write cache file" ∧
      ∃ cm2, ClearCache cmTS0 = Except.ok cm2 ∧ cm2.fc.dirExists = true ∧
        (∀ q, cm2.fc.store q = none) ∧
        ∃ fc3, FileCache.Set cm2.fc 1 "g" (CacheData.bytes "y")
          = Except.ok fc3) :=
  ⟨rfl, rfl, rfl,
    clear_removes_dir_clearCache_keeps_dir stC3 cmTS0 0 1 "f" "g"
      (CacheData.bytes "x") (CacheData.bytes "y")
      { size := 1, modTime := 0 } { size := 1, modTime := 0 } rfl rfl rfl⟩

/-! ### Claim C6 -/

/-- Exactly one of the hit/miss counters was bumped, and TotalRequests
went up by one. -/
def bumpedOnce (old new : CacheStats) : Prop :=
  new.totalRequests = old.totalRequests + 1 ∧
  ((new.cacheHits = old.cacheHits + 1 ∧ new.cacheMisses = old.cacheMisses) ∨
   (new.cacheHits = old.cacheHits ∧ new.cacheMisses = old.cacheMisses + 1))

/-- A concrete stored project snapshot. -/
def snap0 : ProjectSnapshot := { rootDir := "root", timestamp := 0, files := [] }

/-- State holding `snap0` under the snapshot key "sk". -/
def cmSnap : CMState :=
  { fc :=
      { fs := emptyFS
        dirExists := true
        store := storeWrite (fun _ => none) (generateCacheKey "sk")
          (Blob.entry
            { data := CacheData.snapshot snap0, timestamp := 0,
              fileSize := 0, modTime := 0, hash := "sk" }) }
    stats := { totalRequests := 0, cacheHits := 0, cacheMisses := 0 } }

/-- C6 counterexample: GetProjectSnapshot completes a successful read yet
leaves TotalRequests (and both counters) untouched — it increments
neither the hit nor the miss counter. -/
theorem getProjectSnapshot_no_accounting_counterexample :
    (GetProjectSnapshot cmSnap "sk").1 = (some snap0, true) ∧
    (GetProjectSnapshot cmSnap "sk").2.stats.totalRequests
      = cmSnap.stats.totalRequests ∧
    ¬ (GetProjectSnapshot cmSnap "sk").2.stats.totalRequests
      = cmSnap.stats.totalRequests + 1 := by
  refine ⟨?_, ?_, ?_⟩ <;> decide

/-- C6 (amended): GetConfigCache, GetFileContentCache and
GetTreeSitterCache each increment exactly one of the hit/miss counters
(and TotalRequests by one) on every call and never throw;
GetProjectSnapshot, by contrast, returns its boolean without touching the
counters or the store at all. -/
theorem accessors_account_hit_or_miss (cm : CMState) (p k : String) :
    bumpedOnce cm.stats (GetConfigCache cm p).2.stats ∧
    bumpedOnce cm.stats (GetFileContentCache cm p).2.stats ∧
    bumpedOnce cm.stats (GetTreeSitterCache cm p).2.stats ∧
    (GetProjectSnapshot cm k).2 = cm := by
  refine ⟨?_, ?_, ?_, ?_⟩
  · unfold GetConfigCache
    split <;> simp [bumpedOnce, recordCacheHit, recordCacheMiss]
  · unfold GetFileContentCache
    split <;> simp [bumpedOnce, recordCacheHit, recordCacheMiss]
  · unfold GetTreeSitterCache
    cases hd : cm.fc.dirExists
    · simp [bumpedOnce, recordCacheMiss]
    · cases hs : cm.fc.store (generateCacheKey (p ++ ".treesitter")) with
      | none => simp [hs, bumpedOnce, recordCacheMiss]
      | some b =>
        cases b with
        | corrupt => simp [hs, bumpedOnce, recordCacheMiss]
        | entry e =>
          cases he : e.data <;>
            simp [hs, he, bumpedOnce, recordCacheHit, recordCacheMiss]
  · unfold GetProjectSnapshot
    cases hd : cm.fc.dirExists
    · simp
    · cases hs : cm.fc.store (generateCacheKey k) with
      | none => simp [hs]
      | some b =>
        cases b with
        | corrupt => simp [hs]
        | entry e => cases he : e.data <;> simp [hs, he]

/-! ### Claim C9 -/

/-- The operations that mutate the performance counters. -/
inductive StatsOp where
  | hit
  | miss
  | reset

/-- One counter mutation: recordCacheHit, recordCacheMiss, or
ResetPerformanceStats. -/
def statsStep (s : CacheStats) : StatsOp → CacheStats
  | StatsOp.hit => recordCacheHit s
  | StatsOp.miss => recordCacheMiss s
  | StatsOp.reset => resetPerformanceStats s

/-- Counters at CacheManager construction. -/
def statsInit : CacheStats :=
  { totalRequests := 0, cacheHits := 0, cacheMisses := 0 }

/-- The claimed invariant: TotalRequests = CacheHits + CacheMisses. -/
def statsInvariant (s : CacheStats) : Prop :=
  s.totalRequests = s.cacheHits + s.cacheMisses

/-- Uniqueness of the binary exponent: Int.log 2 is the e with
2^e ≤ q < 2^(e+1). -/
lemma int_log2_eq (q : ℚ) (e : Int) (hq : 0 < q)
    (h1 : (2 : ℚ) ^ e ≤ q) (h2 : q < (2 : ℚ) ^ (e + 1)) :
    Int.log 2 q = e := by
  have hcast : ((2 : ℕ) : ℚ) = (2 : ℚ) := by norm_num
  apply le_antisymm
  · by_contra h
    push_neg at h
    have hle : (2 : ℚ) ^ (e + 1) ≤ (2 : ℚ) ^ (Int.log 2 q) :=
      zpow_le_zpow_right₀ (a := (2 : ℚ)) (by norm_num) (by omega)
    have h3 : ((2 : ℕ) : ℚ) ^ (Int.log 2 q) ≤ q :=
      Int.zpow_log_le_self (by norm_num) hq
    rw [hcast] at h3
    linarith
  · by_contra h
    push_neg at h
    have h4 : q < ((2 : ℕ) : ℚ) ^ (Int.log 2 q + 1) :=
      Int.lt_zpow_succ_log_self (by norm_num) q
    rw [hcast] at h4
    have hle : (2 : ℚ) ^ (Int.log 2 q + 1) ≤ (2 : ℚ) ^ e :=
      zpow_le_zpow_right₀ (a := (2 : ℚ)) (by norm_num) (by omega)
    linarith

/-- The exact value of the nearest IEEE-754 binary64 neighbour of a
rational (round half to even), faithful on the binary64 normal range —
which covers every value the rate computations below produce.  Each Go
float64 operation returns its exact real result rounded this way. -/
def roundB64 (q : ℚ) : ℚ :=
  if q = 0 then 0
  else
    let a := |q|
    let e := Int.log 2 a
    let scaled := a * (2 : ℚ) ^ (52 - e)
    let m0 := ⌊scaled⌋
    let m : Int :=
      if scaled - m0 < 1 / 2 then m0
      else if 1 / 2 < scaled - m0 then m0 + 1
      else if m0 % 2 = 0 then m0 else m0 + 1
    (if q < 0 then -1 else 1) * (m : ℚ) * (2 : ℚ) ^ (e - 52)

/-- Evaluation of the rounding in the round-down case (the exact value
sits strictly below the midpoint of its binade step). -/
lemma roundB64_round_down (q : ℚ) (e m0 : Int) (hq : 0 < q)
    (h1 : (2 : ℚ) ^ e ≤ q) (h2 : q < (2 : ℚ) ^ (e + 1))
    (hm0 : (m0 : ℚ) ≤ q * (2 : ℚ) ^ (52 - e))
    (hfrac : q * (2 : ℚ) ^ (52 - e) - m0 < 1 / 2) :
    roundB64 q = m0 * (2 : ℚ) ^ (e - 52) := by
  have hlog : Int.log 2 q = e := int_log2_eq q e hq h1 h2
  have hne : q ≠ 0 := ne_of_gt hq
  have habs : |q| = q := abs_of_pos hq
  have hfloor : ⌊q * (2 : ℚ) ^ (52 - e)⌋ = m0 := by
    rw [Int.floor_eq_iff]
    exact ⟨hm0, by linarith⟩
  unfold roundB64
  rw [if_neg hne]
  simp only [habs, hlog, hfloor]
  rw [if_pos (show q * (2 : ℚ) ^ (52 - e) - (m0 : ℚ) < 1 / 2 from hfrac),
    if_neg (not_lt.2 (le_of_lt hq))]
  ring

/-- Go's float64(int64) conversion. -/
def toFloat64 (n : Int) : ℚ := roundB64 (n : ℚ)

/-- float64 division: the exact quotient, rounded. -/
def fdiv64 (a b : ℚ) : ℚ := roundB64 (a / b)

/-- float64 multiplication: the exact product, rounded. -/
def fmul64 (a b : ℚ) : ℚ := roundB64 (a * b)

/-- hit_rate_percent of GetPerformanceStats:
float64(CacheHits) / float64(TotalRequests) * 100 in float64
arithmetic (the constant 100 is exactly representable). -/
def hitRatePercent (s : CacheStats) : ℚ :=
  if 0 < s.totalRequests then
    fmul64 (fdiv64 (toFloat64 s.cacheHits) (toFloat64 s.totalRequests)) 100
  else 0

/-- miss_rate_percent of GetPerformanceStats, same computation on
CacheMisses. -/
def missRatePercent (s : CacheStats) : ℚ :=
  if 0 < s.totalRequests then
    fmul64 (fdiv64 (toFloat64 s.cacheMisses) (toFloat64 s.totalRequests)) 100
  else 0

lemma toFloat64_one : toFloat64 1 = 1 := by
  unfold toFloat64
  rw [show ((1 : Int) : ℚ) = 1 by norm_num]
  rw [roundB64_round_down 1 0 4503599627370496 (by norm_num) (by norm_num)
    (by norm_num) (by norm_num) (by norm_num)]
  norm_num

lemma toFloat64_two : toFloat64 2 = 2 := by
  unfold toFloat64
  rw [show ((2 : Int) : ℚ) = 2 by norm_num]
  rw [roundB64_round_down 2 1 4503599627370496 (by norm_num) (by norm_num)
    (by norm_num) (by norm_num) (by norm_num)]
  norm_num

lemma toFloat64_three : toFloat64 3 = 3 := by
  unfold toFloat64
  rw [show ((3 : Int) : ℚ) = 3 by norm_num]
  rw [roundB64_round_down 3 1 6755399441055744 (by norm_num) (by norm_num)
    (by norm_num) (by norm_num) (by norm_num)]
  norm_num

/-- 1.0/3.0*100 in float64: first 1/3 rounds to 6004799503160661·2⁻⁵⁴,
then the product rounds to 4691249611844266·2⁻⁴⁷. -/
lemma float64_hit_third : fmul64 (fdiv64 (toFloat64 1) (toFloat64 3)) 100
    = 4691249611844266 / 140737488355328 := by
  rw [toFloat64_one, toFloat64_three]
  unfold fdiv64
  rw [roundB64_round_down ((1 : ℚ) / 3) (-2) 6004799503160661 (by norm_num)
    (by norm_num) (by norm_num) (by norm_num) (by norm_num)]
  unfold fmul64
  rw [roundB64_round_down _ 5 4691249611844266 (by norm_num) (by norm_num)
    (by norm_num) (by norm_num) (by norm_num)]
  norm_num

/-- 2.0/3.0*100 in float64: 2/3 rounds to 6004799503160661·2⁻⁵³, the
product to 4691249611844266·2⁻⁴⁶. -/
lemma float64_miss_two_thirds :
    fmul64 (fdiv64 (toFloat64 2) (toFloat64 3)) 100
      = 4691249611844266 / 70368744177664 := by
  rw [toFloat64_two, toFloat64_three]
  unfold fdiv64
  rw [roundB64_round_down ((2 : ℚ) / 3) (-1) 6004799503160661 (by norm_num)
    (by norm_num) (by norm_num) (by norm_num) (by norm_num)]
  unfold fmul64
  rw [roundB64_round_down _ 6 4691249611844266 (by norm_num) (by norm_num)
    (by norm_num) (by norm_num) (by norm_num)]
  norm_num

/-- At one hit and two misses the two reported float64 rates sum to
7036874417766399·2⁻⁴⁶, one binary64 ulp below 100. -/
lemma rates_sum_one_hit_two_misses :
    hitRatePercent { totalRequests := 3, cacheHits := 1, cacheMisses := 2 }
      + missRatePercent
        { totalRequests := 3, cacheHits := 1, cacheMisses := 2 }
      = 7036874417766399 / 70368744177664 := by
  have h1 : hitRatePercent
      { totalRequests := 3, cacheHits := 1, cacheMisses := 2 }
      = fmul64 (fdiv64 (toFloat64 1) (toFloat64 3)) 100 := by
    unfold hitRatePercent
    rw [if_pos (by norm_num)]
  have h2 : missRatePercent
      { totalRequests := 3, cacheHits := 1, cacheMisses := 2 }
      = fmul64 (fdiv64 (toFloat64 2) (toFloat64 3)) 100 := by
    unfold missRatePercent
    rw [if_pos (by norm_num)]
  rw [h1, h2, float64_hit_third, float64_miss_two_thirds]
  norm_num

/-- C9 counterexample: the reachable counter state with one hit and two
misses satisfies the integer invariant and has TotalRequests > 0, yet
its reported float64 hit_rate_percent and miss_rate_percent do NOT sum
to 100 (they sum to 100 - 2⁻⁴⁶ = 99.99999999999998578…). -/
theorem float64_rates_sum_counterexample :
    statsInvariant { totalRequests := 3, cacheHits := 1, cacheMisses := 2 } ∧
    0 < ({ totalRequests := 3, cacheHits := 1, cacheMisses := 2 }
      : CacheStats).totalRequests ∧
    ¬ (hitRatePercent { totalRequests := 3, cacheHits := 1, cacheMisses := 2 }
        + missRatePercent
          { totalRequests := 3, cacheHits := 1, cacheMisses := 2 } = 100) := by
  refine ⟨by norm_num [statsInvariant], by norm_num, ?_⟩
  rw [rates_sum_one_hit_two_misses]
  norm_num

/-- C9 (amended): TotalRequests = CacheHits + CacheMisses holds at
construction and is preserved by recordCacheHit, recordCacheMiss and
ResetPerformanceStats; the reported float64 hit_rate_percent and
miss_rate_percent, however, need not sum to exactly 100 when
TotalRequests > 0 — at one hit and two misses they sum to
7036874417766399·2⁻⁴⁶, one binary64 ulp short of 100. -/
theorem stats_invariant_preserved (s : CacheStats) (op : StatsOp)
    (h : statsInvariant s) :
    statsInvariant statsInit ∧ statsInvariant (statsStep s op) ∧
    hitRatePercent { totalRequests := 3, cacheHits := 1, cacheMisses := 2 }
        + missRatePercent
          { totalRequests := 3, cacheHits := 1, cacheMisses := 2 }
      = 7036874417766399 / 70368744177664 ∧
    ¬ ((7036874417766399 : ℚ) / 70368744177664 = 100) := by
  refine ⟨by norm_num [statsInvariant, statsInit], ?_,
    rates_sum_one_hit_two_misses, by norm_num⟩
  cases op <;>
    simp only [statsStep, statsInvariant, recordCacheHit, recordCacheMiss,
      resetPerformanceStats] at h ⊢ <;>
    omega

/-- C9 witness: the amended theorem applied at a concrete counter state
with one hit and one miss. -/
theorem stats_invariant_preserved_witness :
    statsInvariant { totalRequests := 2, cacheHits := 1, cacheMisses := 1 } ∧
    (statsInvariant statsInit ∧
      statsInvariant (statsStep
        { totalRequests := 2, cacheHits := 1, cacheMisses := 1 }
        StatsOp.hit) ∧
      hitRatePercent { totalRequests := 3, cacheHits := 1, cacheMisses := 2 }
          + missRatePercent
            { totalRequests := 3, cacheHits := 1, cacheMisses := 2 }
        = 7036874417766399 / 70368744177664 ∧
      ¬ ((7036874417766399 : ℚ) / 70368744177664 = 100)) :=
  ⟨by norm_num [statsInvariant],
    stats_invariant_preserved
      { totalRequests := 2, cacheHits := 1, cacheMisses := 1 } StatsOp.hit
      (by norm_num [statsInvariant])⟩

/-! ### Snapshot differ (analyzer.go) -/

/-- Go `Time.Unix()`: whole seconds of a nanosecond timestamp. -/
def unixSec (t : Int) : Int := Int.fdiv t 1000000000

/-- The composite hash `fmt.Sprintf("%d_%d", modTime.Unix(), size)`;
decimal rendering of two integers around a separator is injective, so the
string is modelled as the pair (whole seconds, size). -/
def mkFileHash (modTime size : Int) : Int × Int := (unixSec modTime, size)

/-- A file under the project root as the directory walk sees it:
relative path, stat data, content. -/
structure SrcFile where
  relativePath : String
  size : Int
  modTime : Int
  content : String
deriving DecidableEq

/-- Lookup in the ProjectSnapshot.Files map. -/
def lookupSnap : List (String × FileSnapshot) → String → Option FileSnapshot
  | [], _ => none
  | (k, v) :: rest, rel => if k = rel then some v else lookupSnap rest rel

/-- CodeAnalyzer.createProjectSnapshot: walk the tree, skip ignored paths
(IsDefaultIgnored and IsGitIgnored merged into the external predicate
`ignored`) and files over 100 KiB, and record a FileSnapshot per file. -/
def createProjectSnapshot (ignored : String → Bool) (rootDir : String)
    (now : Int) (tree : List SrcFile) : ProjectSnapshot :=
  { rootDir := rootDir
    timestamp := now
    files := (tree.filter fun f =>
        !(ignored f.relativePath) && decide (f.size ≤ 100 * 1024)).map
      fun f => (f.relativePath,
        { relativePath := f.relativePath, modTime := f.modTime,
          size := f.size, hash := mkFileHash f.modTime f.size }) }

/-- CodeAnalyzer.compareSnapshots: changed = new paths plus paths whose
composite hash differs; deleted = prior paths missing from the current
snapshot. -/
def compareSnapshots (prev cur : ProjectSnapshot) :
    List String × List String :=
  ((cur.files.filter fun p =>
      match lookupSnap prev.files p.1 with
      | some pf => decide (¬ pf.hash = p.2.hash)
      | none => true).map (fun p => p.1),
   (prev.files.filter fun q =>
      (lookupSnap cur.files q.1).isNone).map (fun q => q.1))

lemma lookupSnap_mem {l : List (String × FileSnapshot)} {rel : String}
    {v : FileSnapshot} (h : lookupSnap l rel = some v) : (rel, v) ∈ l := by
  induction l with
  | nil => simp [lookupSnap] at h
  | cons hd tl ih =>
    obtain ⟨k, w⟩ := hd
    unfold lookupSnap at h
    by_cases hk : k = rel
    · rw [if_pos hk] at h
      injection h with h
      subst hk
      subst h
      exact List.mem_cons_self _ _
    · rw [if_neg hk] at h
      exact List.mem_cons_of_mem _ (ih h)

lemma mem_lookupSnap {l : List (String × FileSnapshot)} {rel : String}
    {v : FileSnapshot} (hnd : (l.map Prod.fst).Nodup) (hm : (rel, v) ∈ l) :
    lookupSnap l rel = some v := by
  induction l with
  | nil => simp at hm
  | cons hd tl ih =>
    obtain ⟨k, w⟩ := hd
    simp only [List.map_cons, List.nodup_cons] at hnd
    rcases List.mem_cons.1 hm with h | h
    · injection h with h1 h2
      subst h1
      subst h2
      simp [lookupSnap]
    · have hk : ¬ k = rel := by
        intro hk
        subst hk
        exact hnd.1 (List.mem_map.2 ⟨(k, v), h, rfl⟩)
      unfold lookupSnap
      rw [if_neg hk]
      exact ih hnd.2 h

/-- Well-formedness of a snapshot built by createProjectSnapshot: every
hash is the composite of its own (modTime, size), and paths are unique. -/
def snapWF (s : ProjectSnapshot) : Prop :=
  (∀ p ∈ s.files, p.2.hash = mkFileHash p.2.modTime p.2.size) ∧
  (s.files.map Prod.fst).Nodup

/-- createProjectSnapshot yields a well-formed snapshot whenever the walk
produces distinct relative paths. -/
lemma createProjectSnapshot_wf (ignored : String → Bool) (rootDir : String)
    (now : Int) (tree : List SrcFile)
    (hnd : (tree.map SrcFile.relativePath).Nodup) :
    snapWF (createProjectSnapshot ignored rootDir now tree) := by
  constructor
  · intro p hp
    simp only [createProjectSnapshot, List.mem_map] at hp
    obtain ⟨f, _, rfl⟩ := hp
    rfl
  · show ((((tree.filter _).map _).map Prod.fst)).Nodup
    rw [List.map_map]
    have hsub : List.Sublist
        ((tree.filter fun f =>
          !(ignored f.relativePath) && decide (f.size ≤ 100 * 1024)).map
            SrcFile.relativePath)
        (tree.map SrcFile.relativePath) :=
      (List.filter_sublist tree).map SrcFile.relativePath
    exact hnd.sublist hsub

/-! ### Claim C5 -/

/-- Previous tree for the C5 counterexample: one file "a", size 1,
modification time 0 ns. -/
def treeP : List SrcFile :=
  [{ relativePath := "a", size := 1, modTime := 0, content := "x" }]

/-- Current tree: same file, same size, modification time 500000000 ns —
changed, but within the same whole second. -/
def treeC : List SrcFile :=
  [{ relativePath := "a", size := 1, modTime := 500000000, content := "x" }]

/-- Snapshot of `treeP`. -/
def snapP : ProjectSnapshot :=
  createProjectSnapshot (fun _ => false) "root" 0 treeP

/-- Snapshot of `treeC`. -/
def snapC : ProjectSnapshot :=
  createProjectSnapshot (fun _ => false) "root" 5 treeC

/-- C5 counterexample: the two snapshots compare as unchanged
(changed = ∅, deleted = ∅) although the (size, modTime) pair of "a" DID
change — the composite hash only sees whole seconds of the modification
time, so a sub-second mtime change is invisible. -/
theorem compareSnapshots_subsecond_counterexample :
    compareSnapshots snapP snapC = ([], []) ∧
    lookupSnap snapP.files "a"
      = some { relativePath := "a", modTime := 0, size := 1, hash := (0, 1) } ∧
    lookupSnap snapC.files "a"
      = some { relativePath := "a", modTime := 500000000, size := 1,
               hash := (0, 1) } ∧
    ¬ ((1 : Int), (0 : Int)) = ((1 : Int), (500000000 : Int)) := by
  refine ⟨?_, ?_, ?_, ?_⟩ <;> decide

/-- C5 (amended): for well-formed snapshots (as produced by
createProjectSnapshot), compareSnapshots returns changed = ∅ and
deleted = ∅ iff both snapshots contain exactly the same relative paths
and, for every path, the size and the modification time TRUNCATED TO
WHOLE SECONDS are unchanged; the full (size, modTime) pair need not be. -/
theorem compareSnapshots_empty_iff (prev cur : ProjectSnapshot)
    (hp : snapWF prev) (hc : snapWF cur) :
    compareSnapshots prev cur = ([], []) ↔
      ((∀ rel, (lookupSnap prev.files rel).isSome
          ↔ (lookupSnap cur.files rel).isSome) ∧
       (∀ rel pf cf, lookupSnap prev.files rel = some pf →
          lookupSnap cur.files rel = some cf →
          pf.size = cf.size ∧ unixSec pf.modTime = unixSec cf.modTime)) := by
  unfold compareSnapshots
  rw [Prod.mk.injEq, List.map_eq_nil_iff, List.map_eq_nil_iff,
    List.filter_eq_nil_iff, List.filter_eq_nil_iff]
  constructor
  · rintro ⟨hch, hdel⟩
    constructor
    · intro rel
      constructor
      · intro hps
        obtain ⟨pf, hpf⟩ := Option.isSome_iff_exists.1 hps
        have hmem := lookupSnap_mem hpf
        have := hdel (rel, pf) hmem
        simp only [decide_eq_true_eq, Option.isNone_iff_eq_none] at this
        cases hcur : lookupSnap cur.files rel
        · exact absurd hcur this
        · simp
      · intro hcs
        obtain ⟨cf, hcf⟩ := Option.isSome_iff_exists.1 hcs
        have hmem := lookupSnap_mem hcf
        have := hch (rel, cf) hmem
        cases hprev : lookupSnap prev.files rel
        · rw [hprev] at this
          simp at this
        · simp
    · intro rel pf cf hpf hcf
      have hmemc := lookupSnap_mem hcf
      have hnc := hch (rel, cf) hmemc
      rw [hpf] at hnc
      simp only [decide_eq_true_eq, Decidable.not_not] at hnc
      have hwfp : pf.hash = mkFileHash pf.modTime pf.size :=
        hp.1 (rel, pf) (lookupSnap_mem hpf)
      have hwfc : cf.hash = mkFileHash cf.modTime cf.size :=
        hc.1 (rel, cf) hmemc
      rw [hwfp, hwfc] at hnc
      unfold mkFileHash at hnc
      injection hnc with h1 h2
      exact ⟨h2, h1⟩
  · rintro ⟨hiff, hpair⟩
    constructor
    · intro p hpmem
      obtain ⟨rel, cf⟩ := p
      have hcf : lookupSnap cur.files rel = some cf := mem_lookupSnap hc.2 hpmem
      have hps : (lookupSnap prev.files rel).isSome :=
        (hiff rel).2 (by rw [hcf]; simp)
      obtain ⟨pf, hpf⟩ := Option.isSome_iff_exists.1 hps
      obtain ⟨hsz, hsec⟩ := hpair rel pf cf hpf hcf
      have hwfp : pf.hash = mkFileHash pf.modTime pf.size :=
        hp.1 (rel, pf) (lookupSnap_mem hpf)
      have hwfc : cf.hash = mkFileHash cf.modTime cf.size :=
        hc.1 (rel, cf) hpmem
      rw [hpf]
      simp only [decide_eq_true_eq, Decidable.not_not, Bool.not_eq_true]
      rw [hwfp, hwfc]
      unfold mkFileHash
      rw [hsz, hsec]
    · intro q hqmem
      obtain ⟨rel, pf⟩ := q
      have hpf : lookupSnap prev.files rel = some pf := mem_lookupSnap hp.2 hqmem
      have hcs : (lookupSnap cur.files rel).isSome :=
        (hiff rel).1 (by rw [hpf]; simp)
      simp only [Option.isNone_iff_eq_none, decide_eq_true_eq]
      intro hnone
      rw [hnone] at hcs
      simp at hcs

/-- C5 witness: the amended equivalence applied to the two concrete
snapshots of the counterexample, in the direction that certifies the
empty comparison from path-and-(size, whole-second) stability. -/
theorem compareSnapshots_empty_iff_witness :
    snapWF snapP ∧ snapWF snapC ∧
    (compareSnapshots snapP snapC = ([], []) ↔
      ((∀ rel, (lookupSnap snapP.files rel).isSome
          ↔ (lookupSnap snapC.files rel).isSome) ∧
       (∀ rel pf cf, lookupSnap snapP.files rel = some pf →
          lookupSnap snapC.files rel = some cf →
          pf.size = cf.size ∧ unixSec pf.modTime = unixSec cf.modTime))) :=
  have hp : snapWF snapP :=
    createProjectSnapshot_wf (fun _ => false) "root" 0 treeP (by decide)
  have hc : snapWF snapC :=
    createProjectSnapshot_wf (fun _ => false) "root" 5 treeC (by decide)
  ⟨hp, hc, compareSnapshots_empty_iff snapP snapC hp hc⟩

/-! ### Eviction policy engine (SmartCleanupCache, cache.go:430-585) -/

/-- One entry file of the cache directory as the cleanup pass sees it:
its path, byte size, and logical cached-at timestamp (the decoded
entry's Timestamp, falling back to the file mtime). -/
structure CleanFile where
  path : String
  size : Int
  entryAge : Int
deriving DecidableEq

/-- CacheCleanupOptions; a bound is disabled when not positive, matching
the `> 0` guards in the source. -/
structure CleanupOptions where
  maxAge : Int
  maxSize : Int
  maxFiles : Int
  dryRun : Bool
deriving DecidableEq

/-- Cleanup priority order: ascending logical cached-at timestamp. -/
def byAge (a b : CleanFile) : Prop := a.entryAge ≤ b.entryAge

instance : DecidableRel byAge := fun a b => Int.decLe a.entryAge b.entryAge

instance : IsTotal CleanFile byAge := ⟨fun a b => Int.le_total a.entryAge b.entryAge⟩

instance : IsTrans CleanFile byAge := ⟨fun _ _ _ hab hbc => le_trans hab hbc⟩

/-- The alreadyMarked scan: path equality against the toDelete list. -/
def marked (toDelete : List CleanFile) (f : CleanFile) : Bool :=
  toDelete.any fun d => d.path = f.path

/-- Phase 2's loop: walk the remaining files oldest-first, marking while
the running total still exceeds the byte ceiling. -/
def sizeTake (maxSize : Int) : Int → List CleanFile → List CleanFile
  | _, [] => []
  | cur, f :: rest =>
    if cur ≤ maxSize then []
    else f :: sizeTake maxSize (cur - f.size) rest

/-- Total byte size of a list of entry files. -/
def sizeSum (l : List CleanFile) : Int := (l.map CleanFile.size).sum

/-- Phase 1: mark everything older than the age cutoff (cutoff active
only when MaxAge > 0). -/
def phase1Sel (now : Int) (opts : CleanupOptions)
    (sorted : List CleanFile) : List CleanFile :=
  if 0 < opts.maxAge then
    sorted.filter fun f => decide (f.entryAge < now - opts.maxAge)
  else []

/-- Phase 2: when the byte ceiling is active and exceeded, mark unmarked
entries oldest-first until the running total is back under it. -/
def phase2Sel (opts : CleanupOptions) (totalSize : Int)
    (sorted td1 : List CleanFile) : List CleanFile :=
  if 0 < opts.maxSize ∧ opts.maxSize < totalSize then
    td1 ++ sizeTake opts.maxSize (totalSize - sizeSum td1)
      (sorted.filter fun f => ! marked td1 f)
  else td1

/-- Phase 3: when the entry-count ceiling is active and exceeded, mark
the first `len(remaining) - (MaxFiles - len(toDelete))` unmarked entries
oldest-first. -/
def phase3Sel (opts : CleanupOptions) (totalLen : Nat)
    (sorted td2 : List CleanFile) : List CleanFile :=
  if 0 < opts.maxFiles ∧ opts.maxFiles < (totalLen : Int) then
    td2 ++ (sorted.filter fun f => ! marked td2 f).take
      (((sorted.filter fun f => ! marked td2 f).length : Int)
        - (opts.maxFiles - (td2.length : Int))).toNat
  else td2

/-- The full three-phase selection over the age-sorted listing. -/
def cleanupSelect (now : Int) (opts : CleanupOptions)
    (files : List CleanFile) : List CleanFile :=
  phase3Sel opts files.length (List.insertionSort byAge files)
    (phase2Sel opts (sizeSum files) (List.insertionSort byAge files)
      (phase1Sel now opts (List.insertionSort byAge files)))

/-- SmartCleanupCache: sort the directory listing by logical age
ascending, select in three ordered phases (age cutoff, cumulative size
down to the byte ceiling, count down to the entry ceiling), skipping
entries already marked by an earlier phase, then delete the selection
unless DryRun.  Result: (entries marked for deletion, store contents
after the call); the counters of the Go report map derive from the first
component. -/
def SmartCleanupCache (now : Int) (opts : CleanupOptions)
    (files : List CleanFile) : List CleanFile × List CleanFile :=
  (cleanupSelect now opts files,
   if opts.dryRun then files
   else files.filter fun f => ! marked (cleanupSelect now opts files) f)

/-! ### Claim C8 -/

/-- C8: a dry run deletes nothing — the store contents after the call
are exactly the input — and it marks for deletion exactly the entries
the identical call with DryRun=false deletes. -/
theorem smartCleanup_dryRun (now maxAge maxSize maxFiles : Int)
    (files : List CleanFile) :
    SmartCleanupCache now
        { maxAge := maxAge, maxSize := maxSize, maxFiles := maxFiles,
          dryRun := true } files
      = ((SmartCleanupCache now
          { maxAge := maxAge, maxSize := maxSize, maxFiles := maxFiles,
            dryRun := false } files).1, files) := rfl

/-! ### Claim C7 -/

/-- On an age-sorted list, the age-cutoff filter selects a prefix. -/
lemma sorted_filter_age_lt (c : Int) (S : List CleanFile)
    (hs : S.Sorted byAge) :
    ∃ k, k ≤ S.length ∧
      S.filter (fun f => decide (f.entryAge < c)) = S.take k := by
  induction S with
  | nil => exact ⟨0, by simp, rfl⟩
  | cons f rest ih =>
    rw [List.sorted_cons] at hs
    obtain ⟨hf, hrest⟩ := hs
    cases hpf : decide (f.entryAge < c) with
    | false =>
      have hnot : ¬ f.entryAge < c := of_decide_eq_false hpf
      refine ⟨0, by simp, ?_⟩
      rw [List.take_zero, List.filter_eq_nil_iff]
      intro a ha
      simp only [decide_eq_true_eq]
      rcases List.mem_cons.1 ha with rfl | ha
      · exact hnot
      · have hle : f.entryAge ≤ a.entryAge := hf a ha
        omega
    | true =>
      obtain ⟨k, hk, hfil⟩ := ih hrest
      refine ⟨k + 1, by simpa using hk, ?_⟩
      simp [List.filter_cons, hpf, hfil, List.take_succ_cons]

/-- sizeTake marks an initial segment of its input. -/
lemma sizeTake_isTake (m : Int) (cur : Int) (l : List CleanFile) :
    ∃ j, j ≤ l.length ∧ sizeTake m cur l = l.take j := by
  induction l generalizing cur with
  | nil => exact ⟨0, by simp, rfl⟩
  | cons f rest ih =>
    unfold sizeTake
    by_cases h : cur ≤ m
    · rw [if_pos h]
      exact ⟨0, by simp, rfl⟩
    · rw [if_neg h]
      obtain ⟨j, hj, hrec⟩ := ih (cur - f.size)
      exact ⟨j + 1, by simpa using hj, by rw [hrec, List.take_succ_cons]⟩

/-- Filtering out the entries marked in a prefix leaves exactly the
matching suffix, provided paths are pairwise distinct. -/
lemma filter_unmarked_append (T D : List CleanFile)
    (hnd : ((T ++ D).map CleanFile.path).Nodup) :
    (T ++ D).filter (fun f => ! marked T f) = D := by
  rw [List.filter_append]
  have h1 : T.filter (fun f => ! marked T f) = [] := by
    rw [List.filter_eq_nil_iff]
    intro a ha
    simp only [marked, Bool.not_eq_true', List.any_eq_true, decide_eq_true_eq,
      not_not, Bool.not_eq_false]
    exact ⟨a, ha, rfl⟩
  have h2 : D.filter (fun f => ! marked T f) = D := by
    rw [List.filter_eq_self]
    intro a ha
    simp only [marked, Bool.not_eq_true', List.any_eq_false, decide_eq_true_eq]
    intro d hd hpath
    rw [List.map_append] at hnd
    have hdisj := (List.nodup_append.1 hnd).2.2
    exact hdisj (List.mem_map_of_mem CleanFile.path hd)
      (hpath ▸ List.mem_map_of_mem CleanFile.path ha)
  rw [h1, h2, List.nil_append]

/-- Filtering out the entries marked in a take is the matching drop. -/
lemma filter_unmarked_eq_drop (S : List CleanFile)
    (hnd : (S.map CleanFile.path).Nodup) (k : Nat) :
    S.filter (fun f => ! marked (S.take k) f) = S.drop k := by
  have h := filter_unmarked_append (S.take k) (S.drop k)
    (by rw [List.take_append_drop]; exact hnd)
  rwa [List.take_append_drop] at h

/-- Extending a marked prefix by an initial segment of the unmarked
remainder yields a longer prefix. -/
lemma select_extends (S : List CleanFile)
    (hnd : (S.map CleanFile.path).Nodup) (k j : Nat) :
    S.take k ++ ((S.filter fun f => ! marked (S.take k) f).take j)
      = S.take (k + j) := by
  rw [filter_unmarked_eq_drop S hnd k, ← List.take_add]

/-- A prefix of a list with pairwise distinct paths has pairwise
distinct paths. -/
lemma take_paths_nodup (S : List CleanFile)
    (hnd : (S.map CleanFile.path).Nodup) (k : Nat) :
    ((S.take k).map CleanFile.path).Nodup := by
  rw [List.map_take]
  exact hnd.sublist (List.take_sublist k (S.map CleanFile.path))

/-- C7: with MaxFiles = N > 0 and DryRun = false, SmartCleanupCache
leaves at most N entries in the store, the removed entries form a prefix
of the listing sorted ascending by logical cached-at timestamp, and no
entry is selected by two phases — the selection's paths are pairwise
distinct. -/
theorem smartCleanup_maxFiles_bound (now : Int) (opts : CleanupOptions)
    (files : List CleanFile)
    (hN : 0 < opts.maxFiles) (hdry : opts.dryRun = false)
    (hnodup : (files.map CleanFile.path).Nodup) :
    ((SmartCleanupCache now opts files).2.length : Int) ≤ opts.maxFiles ∧
    (∃ k, (SmartCleanupCache now opts files).1
      = (List.insertionSort byAge files).take k) ∧
    ((SmartCleanupCache now opts files).1.map CleanFile.path).Nodup := by
  have hsorted : (List.insertionSort byAge files).Sorted byAge :=
    List.sorted_insertionSort byAge files
  have hperm : List.Perm (List.insertionSort byAge files) files :=
    List.perm_insertionSort byAge files
  set S := List.insertionSort byAge files with hSdef
  have hndS : (S.map CleanFile.path).Nodup := by
    rw [(hperm.map CleanFile.path).nodup_iff]
    exact hnodup
  have hlenS : S.length = files.length := hperm.length_eq
  obtain ⟨k1, hk1, htd1⟩ : ∃ k1, k1 ≤ S.length ∧
      phase1Sel now opts S = S.take k1 := by
    unfold phase1Sel
    by_cases hA : 0 < opts.maxAge
    · rw [if_pos hA]
      exact sorted_filter_age_lt (now - opts.maxAge) S hsorted
    · rw [if_neg hA]
      exact ⟨0, Nat.zero_le _, by rw [List.take_zero]⟩
  obtain ⟨k2, hk2, htd2⟩ : ∃ k2, k2 ≤ S.length ∧
      phase2Sel opts (sizeSum files) S (phase1Sel now opts S)
        = S.take k2 := by
    rw [htd1]
    unfold phase2Sel
    by_cases hB : 0 < opts.maxSize ∧ opts.maxSize < sizeSum files
    · rw [if_pos hB]
      obtain ⟨j, hj, hst⟩ := sizeTake_isTake opts.maxSize
        (sizeSum files - sizeSum (S.take k1))
        (S.filter fun f => ! marked (S.take k1) f)
      rw [hst, select_extends S hndS k1 j]
      refine ⟨k1 + j, ?_, rfl⟩
      rw [filter_unmarked_eq_drop S hndS k1, List.length_drop] at hj
      omega
    · rw [if_neg hB]
      exact ⟨k1, hk1, rfl⟩
  have hclean : cleanupSelect now opts files
      = phase3Sel opts files.length S (S.take k2) := by
    unfold cleanupSelect
    rw [← hSdef, htd2]
  have hfst : (SmartCleanupCache now opts files).1
      = phase3Sel opts files.length S (S.take k2) := hclean
  have hsnd : (SmartCleanupCache now opts files).2
      = files.filter
        fun f => ! marked (phase3Sel opts files.length S (S.take k2)) f := by
    show (if opts.dryRun then files
      else files.filter fun f => ! marked (cleanupSelect now opts files) f) = _
    rw [hdry, hclean]
    simp
  rw [hfst, hsnd]
  by_cases hC : 0 < opts.maxFiles ∧ opts.maxFiles < (files.length : Int)
  · -- count phase runs
    have hrem : (S.filter fun f => ! marked (S.take k2) f) = S.drop k2 :=
      filter_unmarked_eq_drop S hndS k2
    have hlen2 : (S.take k2).length = k2 := by
      rw [List.length_take]
      omega
    set e : Nat := (((S.filter fun f => ! marked (S.take k2) f).length : Int)
      - (opts.maxFiles - ((S.take k2).length : Int))).toNat with hedef
    have htd3 : phase3Sel opts files.length S (S.take k2)
        = S.take (k2 + e) := by
      unfold phase3Sel
      rw [if_pos hC, select_extends S hndS k2 e]
    have he : (e : Int) = max ((S.length : Int) - opts.maxFiles) 0 := by
      rw [hedef, hrem, List.length_drop, hlen2]
      have : ((S.length - k2 : Nat) : Int) = (S.length : Int) - (k2 : Int) := by
        omega
      omega
    constructor
    · have hplen : (files.filter
            (fun f => ! marked (phase3Sel opts files.length S (S.take k2)) f)).length
          = (S.filter
            (fun f => ! marked (phase3Sel opts files.length S (S.take k2)) f)).length :=
        ((hperm.filter _).length_eq).symm
      rw [hplen, htd3, filter_unmarked_eq_drop S hndS (k2 + e),
        List.length_drop]
      omega
    · constructor
      · exact ⟨k2 + e, by rw [htd3]⟩
      · rw [htd3]
        exact take_paths_nodup S hndS (k2 + e)
  · -- count phase skipped: at most MaxFiles entries were there already
    have hle : (files.length : Int) ≤ opts.maxFiles := by
      rcases not_and_or.1 hC with h | h
      · exact absurd hN h
      · omega
    have htd3 : phase3Sel opts files.length S (S.take k2) = S.take k2 := by
      unfold phase3Sel
      rw [if_neg hC]
    refine ⟨?_, ⟨k2, by rw [htd3]⟩, ?_⟩
    · calc ((files.filter _).length : Int)
          ≤ (files.length : Int) := by
            exact_mod_cast List.length_filter_le _ files
        _ ≤ opts.maxFiles := hle
    · rw [htd3]
      exact take_paths_nodup S hndS k2

/-- C7 witness: the bound theorem applied to a concrete three-entry
store with MaxFiles = 1. -/
theorem smartCleanup_maxFiles_bound_witness :
    0 < (({ maxAge := 0, maxSize := 0, maxFiles := 1, dryRun := false }
        : CleanupOptions)).maxFiles ∧
    (({ maxAge := 0, maxSize := 0, maxFiles := 1, dryRun := false }
        : CleanupOptions)).dryRun = false ∧
    (([{ path := "a", size := 1, entryAge := 3 },
       { path := "b", size := 1, entryAge := 1 },
       { path := "c", size := 1, entryAge := 2 }]
        : List CleanFile).map CleanFile.path).Nodup ∧
    (((SmartCleanupCache 10
        { maxAge := 0, maxSize := 0, maxFiles := 1, dryRun := false }
        [{ path := "a", size := 1, entryAge := 3 },
         { path := "b", size := 1, entryAge := 1 },
         { path := "c", size := 1, entryAge := 2 }]).2.length : Int) ≤ 1 ∧
      (∃ k, (SmartCleanupCache 10
        { maxAge := 0, maxSize := 0, maxFiles := 1, dryRun := false }
        [{ path := "a", size := 1, entryAge := 3 },
         { path := "b", size := 1, entryAge := 1 },
         { path := "c", size := 1, entryAge := 2 }]).1
        = (List.insertionSort byAge
            [{ path := "a", size := 1, entryAge := 3 },
             { path := "b", size := 1, entryAge := 1 },
             { path := "c", size := 1, entryAge := 2 }]).take k) ∧
      ((SmartCleanupCache 10
        { maxAge := 0, maxSize := 0, maxFiles := 1, dryRun := false }
        [{ path := "a", size := 1, entryAge := 3 },
         { path := "b", size := 1, entryAge := 1 },
         { path := "c", size := 1, entryAge := 2 }]).1.map
          CleanFile.path).Nodup) :=
  ⟨by decide, rfl, by decide,
    smartCleanup_maxFiles_bound 10
      { maxAge := 0, maxSize := 0, maxFiles := 1, dryRun := false }
      [{ path := "a", size := 1, entryAge := 3 },
       { path := "b", size := 1, entryAge := 1 },
       { path := "c", size := 1, entryAge := 2 }]
      (by decide) rfl (by decide)⟩

/-! ### Project scans (analyzer.go)

The walk-based scans are modelled over a `tree : List SrcFile` (the
directory walk's view of the project) threaded alongside the cache
manager state, whose `fs` mirrors the same files under their joined
absolute paths.  `reads` and `processed` are ghost instrumentation
counters for ioutil.ReadFile and ProcessFile invocations; the external
ProcessFile analysis is the parameter `pf`. -/

/-- filepath.Join of the root and a relative path. -/
def absPath (rootDir rel : String) : String := rootDir ++ "/" ++ rel

/-- The caller discards the write's error: keep the new state on
success, the old one on failure. -/
def keepOnError (cm : CMState) (r : Except String CMState) : CMState :=
  match r with
  | Except.ok c => c
  | Except.error _ => cm

/-- Analyzer-side state: cache manager plus ghost counters. -/
structure ScanState where
  cm : CMState
  reads : Nat
  processed : Nat

/-- One step of the GetProjectFiles walk for an admitted file:
cache-first content (disk read plus SetFileContentCache on miss, its
error discarded), cache-first derived facts (ProcessFile plus
SetTreeSitterCache on miss), then the two result rows. -/
def scanOneFile (pf : String → String → List String) (rootDir : String)
    (now : Int) (st : ScanState) (f : SrcFile) :
    ScanState × FileData × String :=
  let fp := absPath rootDir f.relativePath
  let c1 :=
    match GetFileContentCache st.cm fp with
    | ((some content, true), cm1) =>
        (({ st with cm := cm1 } : ScanState), content)
    | ((_, _), cm1) =>
        let st1 : ScanState :=
          { cm := cm1, reads := st.reads + 1, processed := st.processed }
        (match SetFileContentCache cm1 now fp f.content with
         | Except.ok cm2 => { st1 with cm := cm2 }
         | Except.error _ => st1, f.content)
  let st1 := c1.1
  let content := c1.2
  let c2 :=
    match GetTreeSitterCache st1.cm fp with
    | ((some parts, true), cm3) => (({ st1 with cm := cm3 } : ScanState), parts)
    | ((_, _), cm3) =>
        let parts := pf f.relativePath content
        let st2 : ScanState :=
          { cm := cm3, reads := st1.reads, processed := st1.processed + 1 }
        (match SetTreeSitterCache cm3 now fp parts with
         | Except.ok cm4 => { st2 with cm := cm4 }
         | Except.error _ => st2, parts)
  let st2 := c2.1
  let parts := c2.2
  (st2,
   { relativePath := f.relativePath, code := content,
     treeSitterCode := String.intercalate "\n" parts },
   "**File: " ++ f.relativePath ++ "**\n\n" ++ String.intercalate "\n" parts)

/-- One iteration of the GetProjectFiles directory walk: skip ignored or
oversize entries, process the rest cache-first and append their rows. -/
def walkStep (pf : String → String → List String) (ignored : String → Bool)
    (rootDir : String) (now : Int) (acc : FullContextData × ScanState)
    (f : SrcFile) : FullContextData × ScanState :=
  if ignored f.relativePath || decide (100 * 1024 < f.size) then acc
  else
    let r := scanOneFile pf rootDir now acc.2 f
    (({ fileData := acc.1.fileData ++ [r.2.1],
        rawCodes := acc.1.rawCodes ++ [r.2.2] } : FullContextData),
     r.1)

/-- CodeAnalyzer.GetProjectFiles: bundle-cache first; otherwise walk the
tree (skipping ignored paths and files over 100 KiB) assembling the
bundle cache-first per file, then store it under the logical
"<root>_project_scan" key — a write whose failure the source discards. -/
def GetProjectFiles (pf : String → String → List String)
    (ignored : String → Bool) (rootDir : String) (now : Int)
    (tree : List SrcFile) (st : ScanState) : FullContextData × ScanState :=
  match GetConfigCache st.cm (rootDir ++ "_project_scan") with
  | ((some cached, true), cm1) => (cached, { st with cm := cm1 })
  | ((_, _), cm1) =>
    let walk := tree.foldl (walkStep pf ignored rootDir now)
      (({ fileData := [], rawCodes := [] } : FullContextData),
       ({ st with cm := cm1 } : ScanState))
    (walk.1,
     { walk.2 with
       cm := keepOnError walk.2.cm
               (SetConfigCache walk.2.cm now (rootDir ++ "_project_scan")
                 walk.1) })

/-- CodeAnalyzer.processIncrementalChanges: re-walk every current file;
paths in `changedFiles` are re-read from disk and both their cache
entries refreshed, other paths go cache-first exactly as in the full
walk. -/
def processIncrementalChanges (pf : String → String → List String)
    (ignored : String → Bool) (rootDir : String) (now : Int)
    (tree : List SrcFile) (changedFiles : List String) (st : ScanState) :
    FullContextData × ScanState :=
  (tree.filter fun f =>
      !(ignored f.relativePath) && decide (f.size ≤ 100 * 1024)).foldl
    (fun (acc : FullContextData × ScanState) f =>
      let fp := absPath rootDir f.relativePath
      if changedFiles.contains f.relativePath then
        let st1 : ScanState :=
          { cm := acc.2.cm, reads := acc.2.reads + 1,
            processed := acc.2.processed }
        let st2 : ScanState :=
          { st1 with
            cm := keepOnError st1.cm
                    (SetFileContentCache st1.cm now fp f.content) }
        let parts := pf f.relativePath f.content
        let st3 : ScanState := { st2 with processed := st2.processed + 1 }
        let st4 : ScanState :=
          { st3 with
            cm := keepOnError st3.cm
                    (SetTreeSitterCache st3.cm now fp parts) }
        (({ fileData := acc.1.fileData ++
              [{ relativePath := f.relativePath, code := f.content,
                 treeSitterCode := String.intercalate "\n" parts }],
            rawCodes := acc.1.rawCodes ++
              ["**File: " ++ f.relativePath ++ "**\n\n"
                ++ String.intercalate "\n" parts] } : FullContextData),
         st4)
      else
        let r := scanOneFile pf rootDir now acc.2 f
        (({ fileData := acc.1.fileData ++ [r.2.1],
            rawCodes := acc.1.rawCodes ++ [r.2.2] } : FullContextData),
         r.1))
    (({ fileData := [], rawCodes := [] } : FullContextData), st)

/-- CodeAnalyzer.GetProjectFilesIncremental.  Result: ((bundle,
wasIncremental), final state, bundleFromCache) — the last component is a
ghost flag, true iff the bundle was served from the logical project-scan
cache entry. -/
def GetProjectFilesIncremental (pf : String → String → List String)
    (ignored : String → Bool) (rootDir : String) (now : Int)
    (tree : List SrcFile) (st : ScanState) :
    (FullContextData × Bool) × ScanState × Bool :=
  let currentSnapshot := createProjectSnapshot ignored rootDir now tree
  match (GetProjectSnapshot st.cm (rootDir ++ "_snapshot")).1.1 with
  | none =>
    let full := GetProjectFiles pf ignored rootDir now tree st
    let st2 : ScanState :=
      { full.2 with
        cm := keepOnError full.2.cm
                (SetProjectSnapshot full.2.cm now (rootDir ++ "_snapshot")
                  currentSnapshot) }
    ((full.1, false), st2, false)
  | some prevSnapshot =>
    match compareSnapshots prevSnapshot currentSnapshot with
    | ([], []) =>
      (match GetConfigCache st.cm (rootDir ++ "_project_scan") with
       | ((some cached, true), cm1) =>
           ((cached, true), ({ st with cm := cm1 } : ScanState), true)
       | ((_, _), cm1) =>
           let full := GetProjectFiles pf ignored rootDir now tree
             ({ st with cm := cm1 } : ScanState)
           ((full.1, true), full.2, false))
    | (changed, _deleted) =>
      let res := processIncrementalChanges pf ignored rootDir now tree
        changed st
      let st2 : ScanState :=
        { res.2 with
          cm := keepOnError res.2.cm
                  (SetProjectSnapshot res.2.cm now (rootDir ++ "_snapshot")
                    currentSnapshot) }
      let st3 : ScanState :=
        { st2 with
          cm := keepOnError st2.cm
                  (SetConfigCache st2.cm now (rootDir ++ "_project_scan")
                    res.1) }
      ((res.1, true), st3, false)

/-! ### Claim C2 -/

/-- A GetConfigCache under an identity naming no stattable file always
misses (FileCache.Get runs the staleness check and invalidates). -/
lemma getConfigCache_miss_of_fs_none (cm : CMState) (k : String)
    (hfs : cm.fc.fs k = none) :
    ∃ cm1, GetConfigCache cm k = ((none, false), cm1) := by
  have hmiss := fileCacheGet_fs_none cm.fc k hfs
  rcases hget : FileCache.Get cm.fc k with ⟨p, fc2⟩
  rw [hget] at hmiss
  have hp : p = (none, false) := hmiss
  subst hp
  refine ⟨{ fc := fc2, stats := recordCacheMiss cm.stats }, ?_⟩
  unfold GetConfigCache
  rw [hget]

/-- A GetConfigCache whose key holds no entry file misses, leaving the
entry store untouched. -/
lemma getConfigCache_miss_of_store_none (cm : CMState) (k : String)
    (hno : cm.fc.store (generateCacheKey k) = none) :
    GetConfigCache cm k
      = ((none, false), { fc := cm.fc, stats := recordCacheMiss cm.stats }) := by
  unfold GetConfigCache
  rw [fileCacheGet_none cm.fc k hno]

/-- The per-file cache state a prior scan of the unchanged filesystem
leaves behind: a content entry whose recorded size/modTime match the
live stat, and a derived-facts entry, each under the file's key. -/
def warmFor (cm : CMState) (rootDir : String) (f : SrcFile) : Prop :=
  (∃ e content,
    cm.fc.store (generateCacheKey (absPath rootDir f.relativePath))
      = some (Blob.entry e) ∧
    e.data = CacheData.bytes content ∧
    cm.fc.fs (absPath rootDir f.relativePath)
      = some { size := e.fileSize, modTime := e.modTime }) ∧
  (∃ e2 parts,
    cm.fc.store
        (generateCacheKey (absPath rootDir f.relativePath ++ ".treesitter"))
      = some (Blob.entry e2) ∧
    e2.data = CacheData.strings parts)

lemma warmFor_congr {cm1 cm2 : CMState} (h : cm1.fc = cm2.fc)
    (rootDir : String) (f : SrcFile) :
    warmFor cm1 rootDir f → warmFor cm2 rootDir f := by
  unfold warmFor
  rw [h]
  exact id

/-- On a warm file, the per-file walk step is all cache hits: the entry
store is untouched and neither a disk read nor a ProcessFile call
happens. -/
lemma scanOneFile_warm (pf : String → String → List String)
    (rootDir : String) (now : Int) (st : ScanState) (f : SrcFile)
    (hdir : st.cm.fc.dirExists = true) (hw : warmFor st.cm rootDir f) :
    (scanOneFile pf rootDir now st f).1.cm.fc = st.cm.fc ∧
    (scanOneFile pf rootDir now st f).1.reads = st.reads ∧
    (scanOneFile pf rootDir now st f).1.processed = st.processed := by
  obtain ⟨⟨e, content, hst, hdata, hfs⟩, ⟨e2, parts, hst2, hdata2⟩⟩ := hw
  have hfresh : ((FileCache.isFileChanged st.cm.fc.fs
        (absPath rootDir f.relativePath) e).2
      || (FileCache.isFileChanged st.cm.fc.fs
        (absPath rootDir f.relativePath) e).1) = false := by
    unfold FileCache.isFileChanged
    rw [hfs]
    simp
  have hget := fileCacheGet_fresh st.cm.fc (absPath rootDir f.relativePath)
    e hdir hst hfresh
  have hgetc : GetFileContentCache st.cm (absPath rootDir f.relativePath)
      = ((some content, true),
         { fc := st.cm.fc, stats := recordCacheHit st.cm.stats }) := by
    unfold GetFileContentCache
    rw [hget, hdata]
  have hgett : GetTreeSitterCache
      { fc := st.cm.fc, stats := recordCacheHit st.cm.stats }
      (absPath rootDir f.relativePath)
      = ((some parts, true),
         { fc := st.cm.fc,
           stats := recordCacheHit (recordCacheHit st.cm.stats) }) := by
    simp only [GetTreeSitterCache, hdir, hst2, hdata2, if_true]
  simp only [scanOneFile, hgetc, hgett]
  exact ⟨trivial, trivial, trivial⟩

/-- Over a tree of warm files the whole walk fold is read-free: the
entry store, the read counter and the ProcessFile counter are those of
the initial accumulator. -/
lemma walkFold_warm (pf : String → String → List String)
    (ignored : String → Bool) (rootDir : String) (now : Int) :
    ∀ (tree : List SrcFile) (acc : FullContextData × ScanState),
      acc.2.cm.fc.dirExists = true →
      (∀ f ∈ tree, ignored f.relativePath = false → f.size ≤ 100 * 1024 →
        warmFor acc.2.cm rootDir f) →
      (tree.foldl (walkStep pf ignored rootDir now) acc).2.cm.fc
        = acc.2.cm.fc ∧
      (tree.foldl (walkStep pf ignored rootDir now) acc).2.reads
        = acc.2.reads ∧
      (tree.foldl (walkStep pf ignored rootDir now) acc).2.processed
        = acc.2.processed := by
  intro tree
  induction tree with
  | nil => exact fun acc _ _ => ⟨rfl, rfl, rfl⟩
  | cons f rest ih =>
    intro acc hdir hw
    rw [List.foldl_cons]
    by_cases hskip : (ignored f.relativePath
        || decide (100 * 1024 < f.size)) = true
    · have hstep : walkStep pf ignored rootDir now acc f = acc := by
        unfold walkStep
        rw [if_pos hskip]
      rw [hstep]
      exact ih acc hdir fun g hg => hw g (List.mem_cons_of_mem f hg)
    · have hadm : ignored f.relativePath = false ∧ f.size ≤ 100 * 1024 := by
        simp only [Bool.or_eq_true, decide_eq_true_eq, not_or] at hskip
        exact ⟨Bool.not_eq_true _ ▸ (by exact hskip.1 : _), by omega⟩
      have hwf := hw f (List.mem_cons_self f rest) hadm.1 hadm.2
      obtain ⟨hfc, hrd, hpr⟩ :=
        scanOneFile_warm pf rootDir now acc.2 f hdir hwf
      have hstep : (walkStep pf ignored rootDir now acc f).2
          = (scanOneFile pf rootDir now acc.2 f).1 := by
        unfold walkStep
        rw [if_neg hskip]
      obtain ⟨hA, hB, hC⟩ := ih (walkStep pf ignored rootDir now acc f)
        (by rw [hstep, hfc]; exact hdir)
        (fun g hg hig hsz =>
          warmFor_congr (by rw [hstep, hfc]) rootDir g
            (hw g (List.mem_cons_of_mem f hg) hig hsz))
      refine ⟨?_, ?_, ?_⟩
      · rw [hA, hstep, hfc]
      · rw [hB, hstep, hrd]
      · rw [hC, hstep, hpr]

/-- When the comparison is empty and the logical bundle key names no
file, GetProjectFilesIncremental misses the bundle cache and falls back
to the full walk, reporting wasIncremental = true. -/
lemma incremental_fallback_general (pf : String → String → List String)
    (ignored : String → Bool) (rootDir : String) (now : Int)
    (tree : List SrcFile) (st : ScanState) (prevSnap : ProjectSnapshot)
    (hprev : (GetProjectSnapshot st.cm (rootDir ++ "_snapshot")).1.1
      = some prevSnap)
    (hcmp : compareSnapshots prevSnap
      (createProjectSnapshot ignored rootDir now tree) = ([], []))
    (hfs : st.cm.fc.fs (rootDir ++ "_project_scan") = none) :
    ∃ cm1, GetConfigCache st.cm (rootDir ++ "_project_scan")
        = ((none, false), cm1) ∧
      GetProjectFilesIncremental pf ignored rootDir now tree st
        = (((GetProjectFiles pf ignored rootDir now tree
              ({ st with cm := cm1 } : ScanState)).1, true),
           (GetProjectFiles pf ignored rootDir now tree
              ({ st with cm := cm1 } : ScanState)).2, false) := by
  obtain ⟨cm1, hcc⟩ := getConfigCache_miss_of_fs_none st.cm _ hfs
  refine ⟨cm1, hcc, ?_⟩
  simp only [GetProjectFilesIncremental, hprev, hcmp, hcc]

/-- A full GetProjectFiles walk over warm per-file caches with no stored
bundle entry performs zero disk reads and zero ProcessFile calls. -/
lemma getProjectFiles_warm_no_rederivation
    (pf : String → String → List String) (ignored : String → Bool)
    (rootDir : String) (now : Int) (tree : List SrcFile) (st : ScanState)
    (hdir : st.cm.fc.dirExists = true)
    (hno : st.cm.fc.store (generateCacheKey (rootDir ++ "_project_scan"))
      = none)
    (hw : ∀ f ∈ tree, ignored f.relativePath = false →
      f.size ≤ 100 * 1024 → warmFor st.cm rootDir f) :
    (GetProjectFiles pf ignored rootDir now tree st).2.reads = st.reads ∧
    (GetProjectFiles pf ignored rootDir now tree st).2.processed
      = st.processed := by
  have hcc := getConfigCache_miss_of_store_none st.cm
    (rootDir ++ "_project_scan") hno
  obtain ⟨hA, hB, hC⟩ := walkFold_warm pf ignored rootDir now tree
    (({ fileData := [], rawCodes := [] } : FullContextData),
     ({ st with cm :=
        { fc := st.cm.fc, stats := recordCacheMiss st.cm.stats } }
       : ScanState))
    hdir
    (fun f hf hig hsz => warmFor_congr rfl rootDir f (hw f hf hig hsz))
  simp only [GetProjectFiles, hcc]
  exact ⟨hB, hC⟩

/-- External ProcessFile analysis for the scenarios: one part holding
the content. -/
def pfX : String → String → List String := fun _ content => [content]

/-- Nothing is ignored in the scenarios. -/
def igF : String → Bool := fun _ => false

/-- The project: one file root/a.go, size 1, mtime 0 ns, content "x". -/
def tree1 : List SrcFile :=
  [{ relativePath := "a.go", size := 1, modTime := 0, content := "x" }]

/-- Stat view matching `tree1`. -/
def fsScan1 : String → Option FileInfo :=
  fun p => if p = "root/a.go" then some { size := 1, modTime := 0 } else none

/-- Fresh analyzer state over `tree1`. -/
def scanSt0 : ScanState :=
  { cm :=
      { fc := { fs := fsScan1, dirExists := true, store := fun _ => none }
        stats := { totalRequests := 0, cacheHits := 0, cacheMisses := 0 } }
    reads := 0
    processed := 0 }

/-- First incremental scan (full: no prior snapshot). -/
def scanRun1 : (FullContextData × Bool) × ScanState × Bool :=
  GetProjectFilesIncremental pfX igF "root" 0 tree1 scanSt0

/-- Second incremental scan over the unchanged filesystem. -/
def scanRun2 : (FullContextData × Bool) × ScanState × Bool :=
  GetProjectFilesIncremental pfX igF "root" 5 tree1 scanRun1.2.1

/-- a.go after an in-place edit: content "y", same size, mtime advanced
by half a second — invisible to the whole-second snapshot hash. -/
def tree2 : List SrcFile :=
  [{ relativePath := "a.go", size := 1, modTime := 500000000, content := "y" }]

/-- Stat view matching `tree2`. -/
def fsScan2 : String → Option FileInfo :=
  fun p => if p = "root/a.go" then some { size := 1, modTime := 500000000 }
           else none

/-- The state after the first scan with the filesystem modified to
`tree2`. -/
def scanSt1m : ScanState :=
  { scanRun1.2.1 with
    cm := { scanRun1.2.1.cm with
            fc := { scanRun1.2.1.cm.fc with fs := fsScan2 } } }

/-- Second incremental scan over the modified filesystem. -/
def scanRun2m : (FullContextData × Bool) × ScanState × Bool :=
  GetProjectFilesIncremental pfX igF "root" 5 tree2 scanSt1m

/-- C2 counterexample: the snapshot comparison of the two scans yields
changed = ∅ and deleted = ∅ (the sub-second modification is invisible to
the composite hash), and the second call reports wasIncremental = true —
but it does NOT return the previously derived bundle with zero
re-derivation: no bundle comes from the bundle cache (the logical-key
SetConfigCache never succeeded), the file is re-read from disk (one
additional ReadFile), and the returned bundle differs from the first
scan's. -/
theorem incremental_scan_counterexample :
    compareSnapshots (createProjectSnapshot igF "root" 0 tree1)
        (createProjectSnapshot igF "root" 5 tree2) = ([], []) ∧
    scanRun2m.1.2 = true ∧
    scanRun2m.2.2 = false ∧
    scanRun2m.2.1.reads = scanRun1.2.1.reads + 1 ∧
    ¬ scanRun2m.1.1 = scanRun1.1.1 := by
  refine ⟨?_, ?_, ?_, ?_, ?_⟩ <;> decide

/-- C2 (amended): whenever a previous snapshot exists, the comparison
yields changed = ∅ and deleted = ∅, and the logical bundle key names no
file on disk (always true of the synthetic "<dir>_project_scan" name),
GetProjectFilesIncremental reports wasIncremental = true but the bundle
is never served from the bundle cache: the GetConfigCache lookup misses
and the bundle is rebuilt by the fallback full GetProjectFiles walk.
Whenever that walk runs over warm per-file caches — a content entry
matching each admitted file's live stat plus a derived-facts entry, as a
preceding scan of the unchanged filesystem leaves — it performs zero
disk reads and zero ProcessFile calls.  In particular two consecutive
scans with no filesystem change report wasIncremental = true on the
second and return an equal (recomputed, not reused) bundle, with zero
re-reads and zero ProcessFile calls on the second. -/
theorem incremental_scan_no_change_rebuilds :
    (∀ (pf : String → String → List String) (ignored : String → Bool)
        (rootDir : String) (now : Int) (tree : List SrcFile)
        (st : ScanState) (prevSnap : ProjectSnapshot),
      (GetProjectSnapshot st.cm (rootDir ++ "_snapshot")).1.1
          = some prevSnap →
      compareSnapshots prevSnap
          (createProjectSnapshot ignored rootDir now tree) = ([], []) →
      st.cm.fc.fs (rootDir ++ "_project_scan") = none →
      ∃ cm1, GetConfigCache st.cm (rootDir ++ "_project_scan")
          = ((none, false), cm1) ∧
        GetProjectFilesIncremental pf ignored rootDir now tree st
          = (((GetProjectFiles pf ignored rootDir now tree
                ({ st with cm := cm1 } : ScanState)).1, true),
             (GetProjectFiles pf ignored rootDir now tree
                ({ st with cm := cm1 } : ScanState)).2, false)) ∧
    (∀ (pf : String → String → List String) (ignored : String → Bool)
        (rootDir : String) (now : Int) (tree : List SrcFile)
        (st : ScanState),
      st.cm.fc.dirExists = true →
      st.cm.fc.store (generateCacheKey (rootDir ++ "_project_scan"))
          = none →
      (∀ f ∈ tree, ignored f.relativePath = false →
        f.size ≤ 100 * 1024 → warmFor st.cm rootDir f) →
      (GetProjectFiles pf ignored rootDir now tree st).2.reads
          = st.reads ∧
        (GetProjectFiles pf ignored rootDir now tree st).2.processed
          = st.processed) ∧
    (scanRun1.1.2 = false ∧
      scanRun2.1.2 = true ∧
      scanRun2.1.1 = scanRun1.1.1 ∧
      scanRun2.2.2 = false ∧
      scanRun2.2.1.reads = scanRun1.2.1.reads ∧
      scanRun2.2.1.processed = scanRun1.2.1.processed) :=
  ⟨incremental_fallback_general, getProjectFiles_warm_no_rederivation,
    by refine ⟨?_, ?_, ?_, ?_, ?_, ?_⟩ <;> decide⟩

/-- C2 witness: the general fallback and warm-walk parts of the amended
theorem applied to the concrete second scan of the two-scan scenario,
with every hypothesis discharged there. -/
theorem incremental_scan_no_change_rebuilds_witness :
    ((GetProjectSnapshot scanRun1.2.1.cm ("root" ++ "_snapshot")).1.1
        = some (createProjectSnapshot igF "root" 0 tree1) ∧
      compareSnapshots (createProjectSnapshot igF "root" 0 tree1)
        (createProjectSnapshot igF "root" 5 tree1) = ([], []) ∧
      scanRun1.2.1.cm.fc.fs ("root" ++ "_project_scan") = none ∧
      (∃ cm1, GetConfigCache scanRun1.2.1.cm ("root" ++ "_project_scan")
          = ((none, false), cm1) ∧
        GetProjectFilesIncremental pfX igF "root" 5 tree1 scanRun1.2.1
          = (((GetProjectFiles pfX igF "root" 5 tree1
                ({ scanRun1.2.1 with cm := cm1 } : ScanState)).1, true),
             (GetProjectFiles pfX igF "root" 5 tree1
                ({ scanRun1.2.1 with cm := cm1 } : ScanState)).2,
             false))) ∧
    (scanRun1.2.1.cm.fc.dirExists = true ∧
      scanRun1.2.1.cm.fc.store
          (generateCacheKey ("root" ++ "_project_scan")) = none ∧
      ((GetProjectFiles pfX igF "root" 5 tree1 scanRun1.2.1).2.reads
          = scanRun1.2.1.reads ∧
        (GetProjectFiles pfX igF "root" 5 tree1 scanRun1.2.1).2.processed
          = scanRun1.2.1.processed)) := by
  have h1 : (GetProjectSnapshot scanRun1.2.1.cm ("root" ++ "_snapshot")).1.1
      = some (createProjectSnapshot igF "root" 0 tree1) := by decide
  have h2 : compareSnapshots (createProjectSnapshot igF "root" 0 tree1)
      (createProjectSnapshot igF "root" 5 tree1) = ([], []) := by decide
  have h3 : scanRun1.2.1.cm.fc.fs ("root" ++ "_project_scan") = none := by
    decide
  have h4 : scanRun1.2.1.cm.fc.dirExists = true := by decide
  have h5 : scanRun1.2.1.cm.fc.store
      (generateCacheKey ("root" ++ "_project_scan")) = none := by decide
  have hwarm : ∀ f ∈ tree1, igF f.relativePath = false →
      f.size ≤ 100 * 1024 → warmFor scanRun1.2.1.cm "root" f := by
    intro f hf _ _
    simp only [tree1, List.mem_singleton] at hf
    subst hf
    exact ⟨⟨{ data := CacheData.bytes "x", timestamp := 0, fileSize := 1,
              modTime := 0, hash := generateCacheKey "root/a.go" }, "x",
            by decide, rfl, by decide⟩,
          ⟨{ data := CacheData.strings ["x"], timestamp := 0, fileSize := 0,
             modTime := 0, hash := "root/a.go" ++ ".treesitter" }, ["x"],
            by decide, rfl⟩⟩
  exact ⟨⟨h1, h2, h3,
      incremental_scan_no_change_rebuilds.1 pfX igF "root" 5 tree1
        scanRun1.2.1 (createProjectSnapshot igF "root" 0 tree1) h1 h2 h3⟩,
    ⟨h4, h5,
      incremental_scan_no_change_rebuilds.2.1 pfX igF "root" 5 tree1
        scanRun1.2.1 h4 h5 hwarm⟩⟩

end Codai
